import Mathlib

/-!
Verification development for the Mira conversational turn controller and
bounded tool-calling loop (`src/index.ts`, `src/agents/MiraAgent.ts`).

The TypeScript sources are shallowly embedded: pure string manipulation is
translated to executable Lean functions over `String` / `List Char`,
stateful handlers become explicit state-passing functions that also return
the list of side effects they would perform, and the external collaborators
(the language model, the tool implementations, the transcript store, the
reverse-geocoding service, the classifier) are supplied as explicit inputs,
mirroring the fact that they are opaque calls in the source.

Where the repository keeps several historical variants of a file
concatenated, the newest variant (the one importing `@mentra/sdk`) is
treated as the program; the older `TranscriptionManager` variant is also
embedded where a claim refers to it (the timer-event dispatcher).
-/

namespace Oasis

/-! ## JavaScript string primitives -/

/-- Characters treated as whitespace by JavaScript `String.prototype.trim`
and by the regex class `\s` (the common members; exotic Unicode spaces that
cannot occur in the embedded string literals are omitted). -/
def isJsWs (c : Char) : Bool :=
  c = ' ' || c = '\t' || c = '\n' || c = '\r' || c = '\x0b' || c = '\x0c' ||
  c = '\u00a0' || c = '\ufeff'

/-- JavaScript `String.prototype.trim` on a character list. -/
def jsTrimList (l : List Char) : List Char :=
  ((l.dropWhile isJsWs).reverse.dropWhile isJsWs).reverse

/-- JavaScript `String.prototype.trim`. -/
def jsTrimStr (s : String) : String :=
  String.mk (jsTrimList s.data)

/-- JavaScript `toLowerCase` (ASCII letters; the wake words and cleaned
transcripts are ASCII). -/
def toLowerList (l : List Char) : List Char :=
  l.map Char.toLower

/-- Index of the first occurrence of `needle` in `hay`
(JavaScript `indexOf`, `none` for -1). -/
def findSub : List Char → List Char → Option Nat
  | hay, needle =>
    if needle.isPrefixOf hay then some 0
    else
      match hay with
      | [] => none
      | _ :: t => (findSub t needle).map (· + 1)

/-- JavaScript `String.prototype.includes` on character lists. -/
def containsSub (hay needle : List Char) : Bool :=
  (findSub hay needle).isSome

/-- JavaScript `String.prototype.includes`. -/
def containsSubstr (hay needle : String) : Bool :=
  containsSub hay.data needle.data

/-- Collapse each maximal whitespace run into a single `' '`
(the regex replacement `\s+` → `' '`): first map every whitespace
character to `' '`, then squeeze adjacent spaces. -/
def squeezeSpaces : List Char → List Char
  | [] => []
  | [c] => [c]
  | a :: b :: rest =>
    if a = ' ' && b = ' ' then squeezeSpaces (b :: rest)
    else a :: squeezeSpaces (b :: rest)

/-- Embeds the transcript cleaning in `handleTranscription`:
`text.toLowerCase().replace(/[.,!?;:]/g, '').replace(/\s+/g, ' ').trim()`. -/
def cleanText (s : String) : String :=
  let lowered := toLowerList s.data
  let noPunct := lowered.filter
    (fun c => !(c = '.' || c = ',' || c = '!' || c = '?' || c = ';' || c = ':'))
  let collapsed := squeezeSpaces (noPunct.map (fun c => if isJsWs c then ' ' else c))
  String.mk (jsTrimList collapsed)

/-- JavaScript `a || b` for an optional string (empty string is falsy). -/
def jsOrStr (o : Option String) (d : String) : String :=
  match o with
  | some s => if s = "" then d else s
  | none => d

/-- JavaScript `a || b` for an optional number (0 is falsy). -/
def jsOrInt (o : Option Int) (d : Int) : Int :=
  match o with
  | some n => if n = 0 then d else n
  | none => d

/-! ## Minimal JSON model

`JSON.parse` is a platform builtin; the fragment of JSON the embedded code
actually exchanges (flat or shallowly nested objects, arrays, strings,
numbers, booleans, null) is modelled by an executable recursive-descent
parser.  Numbers are rationals (mantissa and decimal exponent). -/

inductive JsonVal where
  | null : JsonVal
  | bool (b : Bool) : JsonVal
  | num (q : ℚ) : JsonVal
  | str (s : String) : JsonVal
  | arr (elems : List JsonVal) : JsonVal
  | obj (fields : List (String × JsonVal)) : JsonVal

/-- JSON insignificant whitespace (RFC 8259). -/
def isJsonWs (c : Char) : Bool :=
  c = ' ' || c = '\t' || c = '\n' || c = '\r'

def skipWs (l : List Char) : List Char :=
  l.dropWhile isJsonWs

def hexVal (c : Char) : Option Nat :=
  let n := c.toNat
  if 48 ≤ n && n ≤ 57 then some (n - 48)
  else if 97 ≤ n && n ≤ 102 then some (n - 87)
  else if 65 ≤ n && n ≤ 70 then some (n - 55)
  else none

def escChar (c : Char) : Option Char :=
  if c = '"' then some '"'
  else if c = '\\' then some '\\'
  else if c = '/' then some '/'
  else if c = 'b' then some '\x08'
  else if c = 'f' then some '\x0c'
  else if c = 'n' then some '\n'
  else if c = 'r' then some '\r'
  else if c = 't' then some '\t'
  else none

/-- Parses the body of a JSON string literal (after the opening quote). -/
def parseStrAux : Nat → List Char → Option (List Char × List Char)
  | 0, _ => none
  | _ + 1, [] => none
  | fuel + 1, c :: rest =>
    if c = '"' then some ([], rest)
    else if c = '\\' then
      match rest with
      | [] => none
      | e :: rest2 =>
        if e = 'u' then
          match rest2 with
          | h1 :: h2 :: h3 :: h4 :: rest3 =>
            match hexVal h1, hexVal h2, hexVal h3, hexVal h4 with
            | some a, some b, some c3, some d =>
              (parseStrAux fuel rest3).map
                (fun p => (Char.ofNat (((a * 16 + b) * 16 + c3) * 16 + d) :: p.1, p.2))
            | _, _, _, _ => none
          | _ => none
        else
          match escChar e with
          | some ec => (parseStrAux fuel rest2).map (fun p => (ec :: p.1, p.2))
          | none => none
    else if c.toNat < 32 then none
    else (parseStrAux fuel rest).map (fun p => (c :: p.1, p.2))

def takeDigits (l : List Char) : List Char × List Char :=
  (l.takeWhile Char.isDigit, l.dropWhile Char.isDigit)

def digitsToNat (ds : List Char) : Nat :=
  ds.foldl (fun acc c => 10 * acc + (c.toNat - 48)) 0

/-- Builds the rational `±(ip.fds) × 10^ex` from sign, integer part,
fraction digits and decimal exponent, using only integer arithmetic and
`mkRat` so that the construction evaluates inside the kernel. -/
def ratOfParts (neg : Bool) (ip : Nat) (fds : List Char) (ex : Int) : ℚ :=
  let k := fds.length
  let mAbs : Nat := ip * 10 ^ k + digitsToNat fds
  let m : Int := if neg then -(mAbs : Int) else (mAbs : Int)
  let e : Int := ex - (k : Int)
  if 0 ≤ e then mkRat (m * ((10 ^ e.toNat : Nat) : Int)) 1
  else mkRat m (10 ^ (-e).toNat)

/-- Parses a JSON number (sign, integer part with the leading-zero rule,
optional fraction and exponent). -/
def parseNumber (l : List Char) : Option (ℚ × List Char) :=
  let (neg, l1) :=
    match l with
    | '-' :: rest => (true, rest)
    | _ => (false, l)
  let intPart : Option (Nat × List Char) :=
    match l1 with
    | '0' :: rest =>
      match rest with
      | c :: _ => if c.isDigit then none else some (0, rest)
      | [] => some (0, [])
    | c :: _ =>
      if c.isDigit then
        let p := takeDigits l1
        some (digitsToNat p.1, p.2)
      else none
    | [] => none
  match intPart with
  | none => none
  | some (ip, l2) =>
    let fracPart : Option (List Char × List Char) :=
      match l2 with
      | '.' :: rest =>
        let p := takeDigits rest
        if p.1 = [] then none else some (p.1, p.2)
      | _ => some ([], l2)
    match fracPart with
    | none => none
    | some (fds, l3) =>
      let expPart : Option (Int × List Char) :=
        match l3 with
        | c :: rest =>
          if c = 'e' || c = 'E' then
            let (eneg, rest2) :=
              match rest with
              | '-' :: r => (true, r)
              | '+' :: r => (false, r)
              | _ => (false, rest)
            let p := takeDigits rest2
            if p.1 = [] then none
            else some ((if eneg then -(digitsToNat p.1 : Int) else (digitsToNat p.1 : Int)), p.2)
          else some (0, l3)
        | [] => some (0, [])
      match expPart with
      | none => none
      | some (ex, l4) => some (ratOfParts neg ip fds ex, l4)

mutual

/-- Recursive-descent JSON value parser, fuel-indexed. -/
def parseVal : Nat → List Char → Option (JsonVal × List Char)
  | 0, _ => none
  | fuel + 1, l =>
    match skipWs l with
    | [] => none
    | c :: rest =>
      if c = 'n' then
        if ['u', 'l', 'l'].isPrefixOf rest then some (.null, rest.drop 3) else none
      else if c = 't' then
        if ['r', 'u', 'e'].isPrefixOf rest then some (.bool true, rest.drop 3) else none
      else if c = 'f' then
        if ['a', 'l', 's', 'e'].isPrefixOf rest then some (.bool false, rest.drop 4) else none
      else if c = '"' then
        (parseStrAux (rest.length + 1) rest).map (fun p => (.str (String.mk p.1), p.2))
      else if c = '[' then
        match skipWs rest with
        | ']' :: rest2 => some (.arr [], rest2)
        | _ => parseArrElems fuel rest []
      else if c = '\x7b' then
        match skipWs rest with
        | '\x7d' :: rest2 => some (.obj [], rest2)
        | _ => parseObjMembers fuel rest []
      else if c = '-' || c.isDigit then
        (parseNumber (c :: rest)).map (fun p => (.num p.1, p.2))
      else none

/-- Parses the remaining elements of a non-empty JSON array. -/
def parseArrElems : Nat → List Char → List JsonVal → Option (JsonVal × List Char)
  | 0, _, _ => none
  | fuel + 1, l, acc =>
    match parseVal fuel l with
    | none => none
    | some (v, rest) =>
      match skipWs rest with
      | ',' :: rest2 => parseArrElems fuel rest2 (acc ++ [v])
      | ']' :: rest2 => some (.arr (acc ++ [v]), rest2)
      | _ => none

/-- Parses the remaining members of a non-empty JSON object. -/
def parseObjMembers : Nat → List Char → List (String × JsonVal) → Option (JsonVal × List Char)
  | 0, _, _ => none
  | fuel + 1, l, acc =>
    match skipWs l with
    | '"' :: rest =>
      match parseStrAux (rest.length + 1) rest with
      | none => none
      | some (key, rest2) =>
        match skipWs rest2 with
        | ':' :: rest3 =>
          match parseVal fuel rest3 with
          | none => none
          | some (v, rest4) =>
            match skipWs rest4 with
            | ',' :: rest5 => parseObjMembers fuel rest5 (acc ++ [(String.mk key, v)])
            | '\x7d' :: rest5 => some (.obj (acc ++ [(String.mk key, v)]), rest5)
            | _ => none
        | _ => none
    | _ => none

end

/-- Embeds `JSON.parse`: the whole input (plus surrounding whitespace) must
be consumed, otherwise the call throws (modelled as `none`). -/
def parseJson (s : String) : Option JsonVal :=
  match parseVal (s.data.length + 1) s.data with
  | some (v, rest) => if (skipWs rest).isEmpty then some v else none
  | none => none

/-- Property access `parsed.k` on a parse result (last duplicate key wins,
as in `JSON.parse`); `none` models `undefined`. -/
def getField (v : JsonVal) (k : String) : Option JsonVal :=
  match v with
  | .obj fields => (fields.filter (fun p => p.1 = k)).getLast?.map Prod.snd
  | _ => none

/-- JavaScript truthiness of a parsed JSON value. -/
def jsTruthy : JsonVal → Bool
  | .null => false
  | .bool b => b
  | .num q => q ≠ 0
  | .str s => s ≠ ""
  | .arr _ => true
  | .obj _ => true

/-- Truthiness of a possibly-`undefined` value. -/
def jsTruthyOpt (o : Option JsonVal) : Bool :=
  match o with
  | some v => jsTruthy v
  | none => false

/-- String interpolation of a JSON value (faithful for the strings,
booleans, null and integer-valued numbers the embedded code interpolates). -/
def jsValToString : JsonVal → String
  | .null => "null"
  | .bool b => if b then "true" else "false"
  | .num q =>
    if q.den = 1 then
      (if q.num < 0 then "-" ++ Nat.repr q.num.natAbs else Nat.repr q.num.natAbs)
    else Nat.repr q.num.natAbs ++ "/" ++ Nat.repr q.den
  | .str s => s
  | .arr _ => ""
  | .obj _ => "[object Object]"

/-! ## Wake words (`explicitWakeWords` in `src/index.ts`) -/

def explicitWakeWords : List String :=
  ["hey mira", "he mira", "hey mara", "he mara", "hey mirror", "he mirror",
   "hey miara", "he miara", "hey mia", "he mia", "hey mural", "he mural",
   "hey amira", "hey myra", "he myra", "hay mira", "hai mira", "hey-mira",
   "he-mira", "heymira", "heymara", "hey mirah", "he mirah", "hey meera", "he meera",
   "Amira", "amira", "a mira", "a mirror", "hey miller", "he miller", "hey milla",
   "he milla", "hey mila", "he mila",
   "hey miwa", "he miwa", "hey mora", "he mora", "hey moira", "he moira",
   "hey miera", "he miera", "hey mura", "he mura", "hey maira", "he maira",
   "hey meara", "he meara", "hey mara", "he mara", "hey mina", "he mina",
   "hey mirra", "he mirra", "hey mir", "he mir", "hey miro", "he miro",
   "hey miruh", "he miruh", "hey meerah", "he meerah", "hey meira", "he meira",
   "hei mira", "hi mira", "hey mere", "he mere", "hey murra", "he murra",
   "hey mera", "he mera", "hey neera", "he neera", "hey murah", "he murah",
   "hey mear", "he mear", "hey miras", "he miras", "hey miora", "he miora",
   "hey miri", "he miri",
   "hey maura", "he maura", "hey maya", "he maya", "hey moora", "he moora",
   "hey mihrah", "he mihrah", "ay mira", "ey mira", "yay mira", "hey mihra",
   "hey mera", "hey mira", "hey mila", "hey mirra"]

/-- Wake-word detection on a cleaned fragment:
`explicitWakeWords.some(word => cleanedText.includes(word))`. -/
def hasWakeWordIn (cleanedText : String) : Bool :=
  explicitWakeWords.any (fun w => containsSubstr cleanedText w)

/-! ## The wake-word removal regex

`removeWakeWord` builds the regex
`.*?(?:P1|P2|...)[\s,\.!]*` (case-insensitive, applied with
`String.prototype.replace`, i.e. first match only), where each `Pi` is a
wake word with its escaped literal characters and each inter-word space
replaced by the class `[\s,\.]*`.  The embedding below implements exactly
this engine behaviour: start offsets are tried left to right; at each
offset the lazy `.*?` tries the wake-word alternation first and otherwise
extends by one `.` (any character except a line terminator); alternatives
are tried in list order; the separator classes are starred and, since no
wake-word character is itself a separator, greedy matching of the class is
deterministic. -/

/-- What the regex `.` matches without the `s` flag: any character except a
line terminator. -/
def isDotChar (c : Char) : Bool :=
  !(c = '\n' || c = '\r' || c = ' ' || c = ' ')

/-- The class `[\s,\.]` used between the tokens of a wake word. -/
def isSepChar (c : Char) : Bool :=
  isJsWs c || c = ',' || c = '.'

/-- The class `[\s,\.!]` that the regex consumes after the wake word. -/
def isTrailChar (c : Char) : Bool :=
  isJsWs c || c = ',' || c = '.' || c = '!'

/-- Case-insensitive literal match (the `i` flag); returns the remainder. -/
def matchLitCI : List Char → List Char → Option (List Char)
  | [], cs => some cs
  | _ :: _, [] => none
  | p :: ps, c :: cs =>
    if p.toLower = c.toLower then matchLitCI ps cs else none

/-- Matches `t1 [\s,\.]* t2 [\s,\.]* ... tn`; returns the remainder. -/
def matchTokens : List (List Char) → List Char → Option (List Char)
  | [], cs => some cs
  | [t], cs => matchLitCI t cs
  | t :: t2 :: ts, cs =>
    match matchLitCI t cs with
    | none => none
    | some rest => matchTokens (t2 :: ts) (rest.dropWhile isSepChar)

/-- JavaScript `split(' ')` on a character list. -/
def splitTokensAux : List Char → List Char → List (List Char)
  | [], acc => [acc.reverse]
  | c :: rest, acc =>
    if c = ' ' then acc.reverse :: splitTokensAux rest []
    else splitTokensAux rest (c :: acc)

def splitTokens (l : List Char) : List (List Char) :=
  splitTokensAux l []

/-- String prefix test on the underlying character lists
(`String.prototype.startsWith`). -/
def startsWithStr (s pre : String) : Bool :=
  pre.data.isPrefixOf s.data

/-- String suffix test on the underlying character lists
(`String.prototype.endsWith`). -/
def endsWithStr (s suf : String) : Bool :=
  suf.data.isSuffixOf s.data

/-- The wake-word alternation, as token lists, in source order
(`word.split(' ')`). -/
def wakeTokenLists : List (List (List Char)) :=
  explicitWakeWords.map (fun w => splitTokens w.data)

/-- Tries each alternative in order at the current position; returns the
remainder after the first alternative that matches. -/
def tryWakeAlts : List (List (List Char)) → List Char → Option (List Char)
  | [], _ => none
  | alt :: alts, cs =>
    match matchTokens alt cs with
    | some rest => some rest
    | none => tryWakeAlts alts cs

/-- A wake-word match at the current position followed by the greedy
trailing class `[\s,\.!]*`; returns the remainder. -/
def matchWakeTrail (cs : List Char) : Option (List Char) :=
  (tryWakeAlts wakeTokenLists cs).map (fun rest => rest.dropWhile isTrailChar)

/-- One regex match attempt anchored at the current offset: the lazy `.*?`
tries the alternation first and otherwise consumes one `.`-matching
character and retries.  Returns the remainder after the whole match. -/
def attemptMatch : List Char → Option (List Char)
  | [] => matchWakeTrail []
  | c :: tail =>
    match matchWakeTrail (c :: tail) with
    | some rest => some rest
    | none => if isDotChar c then attemptMatch tail else none

/-- The engine scan: try a match attempt at each successive start offset;
on success return the (kept) prefix before the match together with the
remainder after it. -/
def scanMatch : List Char → Option (List Char × List Char)
  | [] => (attemptMatch []).map (fun rest => ([], rest))
  | c :: tail =>
    match attemptMatch (c :: tail) with
    | some rest => some ([], rest)
    | none => (scanMatch tail).map (fun p => (c :: p.1, p.2))

/-- Embeds the regex body of `removeWakeWord`:
`text.replace(wakeRegex, '').trim()`. -/
def removeWakeWordCore (text : String) : String :=
  match scanMatch text.data with
  | some (pre, rest) => String.mk (jsTrimList (pre ++ rest))
  | none => jsTrimStr text

/-- Embeds `removeWakeWord` of the current `TranscriptionManager`: in
always-listening mode the text is only trimmed. -/
def removeWakeWord (wakeWordRequired : Bool) (text : String) : String :=
  if !wakeWordRequired then jsTrimStr text
  else removeWakeWordCore text

/-- Position-wise first wake-word occurrence: the remainder after the first
position (scanning left to right) where the alternation matches, with the
trailing separator class consumed.  This is the specification-side notion
of "everything up to and including the first wake word plus trailing
separators is deleted". -/
def firstWakeEnd : List Char → Option (List Char)
  | [] => matchWakeTrail []
  | c :: tail =>
    match matchWakeTrail (c :: tail) with
    | some rest => some rest
    | none => firstWakeEnd tail

/-- Embeds `endsWithWakeWord` of the current `TranscriptionManager`: false
in always-listening mode; otherwise the text is cleaned and each wake word
is tested as an anchored case-insensitive suffix. -/
def endsWithWakeWord (wakeWordRequired : Bool) (text : String) : Bool :=
  if !wakeWordRequired then false
  else
    let cleaned := cleanText text
    explicitWakeWords.any (fun w => (toLowerList w.data).isSuffixOf cleaned.data)

/-! ## MiraAgent: the bounded tool-calling loop (`handleContext`)

The language model and the tool implementations are opaque external calls;
they enter the embedding as explicit oracles: `responses` gives the model
message returned by the n-th `llm.invoke` of the turn loop, and `behave`
gives the outcome of invoking a registered tool on a tool call (a returned
string, the rendering of a thrown exception, or the handoff sentinel
`GIVE_APP_CONTROL_OF_TOOL_RESPONSE`).  The registry is the list of tool
names (`agentTools.find(tool => tool.name === toolCall.name)`). -/

structure ToolCall where
  id : Option String
  name : String
  args : String
deriving DecidableEq

inductive ToolOutcome where
  | throws (err : String)
  | handoff
  | str (s : String)
deriving DecidableEq

/-- Conversation messages (`SystemMessage`, `HumanMessage`, `AIMessage`,
`ToolMessage`).  A human message may additionally carry a photo in the
source; the loop never reads it, so it is not modelled. -/
inductive Msg where
  | system (content : String)
  | human (content : String)
  | ai (content : String) (toolCalls : List ToolCall)
  | tool (content : String) (callId : String) (name : Option String) (isError : Bool)
deriving DecidableEq

/-- Possible outcomes of `handleContext`: a parsed final answer, the
handoff sentinel, a timer-event JSON string returned directly, the
`undefined` fall-through when the turn budget is exhausted, and the
`\x7bresult: "No query provided."\x7d` object for a blank query. -/
inductive AgentResult where
  | answer (s : String)
  | handoff
  | timerJson (s : String)
  | noResult
  | noQuery
deriving DecidableEq

/-- Result of processing one batch of tool calls: either all calls were
resolved and the loop continues (`cont`, carrying the appended tool
messages in order) or the loop returned early (`early`, carrying the
messages appended before the return). -/
inductive BatchResult where
  | cont (ms : List Msg)
  | early (ms : List Msg) (r : AgentResult)
deriving DecidableEq

/-- Content of the tool message built for a non-handoff outcome, including
the blank-content normalization (`content || "Tool executed successfully
but did not return any information."`).  A thrown error is rendered as
`` `Error executing tool: $\x7berror\x7d` ``. -/
def toolMsgContent (o : ToolOutcome) : String :=
  let content :=
    match o with
    | .throws e => "Error executing tool: " ++ e
    | .str s => s
    | .handoff => ""
  if content = "" then "Tool executed successfully but did not return any information."
  else content

/-- Tool message pushed for a registered tool (the `Date.now()` suffix of
the fallback call id is abstracted to a fixed placeholder; no claim reads
it). -/
def buildToolMsg (tc : ToolCall) (o : ToolOutcome) : Msg :=
  .tool (toolMsgContent o) (jsOrStr tc.id "fallback_ts") (some tc.name) false

/-- Synthesized error message pushed when the named tool is not in the
registry: content `` `Tool $\x7btoolCall.name\x7d unavailable` `` with
`status: "error"`. -/
def unavailableToolMsg (tc : ToolCall) : Msg :=
  .tool ("Tool " ++ tc.name ++ " unavailable") (jsOrStr tc.id "unknown_ts") none true

/-- The Timer special case: the (normalized) tool message content, trimmed,
must look like JSON (`startsWith` with `"\x7b"` or `"["`), parse, be
truthy, have `event === "timer_set"` and a truthy `duration`. -/
def isTimerSetJson (content : String) : Bool :=
  let c := jsTrimStr content
  (startsWithStr c "\x7b" || startsWithStr c "[") &&
    (match parseJson c with
     | some parsed =>
       jsTruthy parsed &&
       (match getField parsed "event" with
        | some (.str e) => e = "timer_set"
        | _ => false) &&
       jsTruthyOpt (getField parsed "duration")
     | none => false)

/-- The single tool message a given tool call contributes when the batch
completes: the (possibly error-content) message of the registered tool, or the
synthesized unavailable-tool message. -/
def msgFor (reg : List String) (behave : ToolCall → ToolOutcome) (tc : ToolCall) : Msg :=
  if reg.contains tc.name then buildToolMsg tc (behave tc) else unavailableToolMsg tc

def consBatch (m : Msg) : BatchResult → BatchResult
  | .cont ms => .cont (m :: ms)
  | .early ms r => .early (m :: ms) r

/-- Embeds the `for (const toolCall of result.tool_calls)` body of
`handleContext`: sequential processing in emission order; a handoff
sentinel returns immediately (no message pushed); the message of a registered
tool is always pushed, with a caught exception converted to error
content; the Timer special case returns the raw JSON right after pushing;
an unknown tool pushes the synthesized error message and continues. -/
def processToolCalls (reg : List String) (behave : ToolCall → ToolOutcome) :
    List ToolCall → BatchResult
  | [] => .cont []
  | tc :: rest =>
    if reg.contains tc.name then
      if behave tc = .handoff then .early [] .handoff
      else
        let m := buildToolMsg tc (behave tc)
        if tc.name = "Timer" && isTimerSetJson (toolMsgContent (behave tc)) then
          .early [m] (.timerJson (toolMsgContent (behave tc)))
        else consBatch m (processToolCalls reg behave rest)
    else consBatch (unavailableToolMsg tc) (processToolCalls reg behave rest)

/-- The terminal marker test `output.includes("Final Answer:")`. -/
def containsMarker (s : String) : Bool :=
  containsSubstr s "Final Answer:"

/-- The slice `text.split(marker)[1]`: the segment after the first marker
occurrence, up to the next occurrence or the end. -/
def splitSegment1 (cs marker : List Char) : List Char :=
  match findSub cs marker with
  | none => []
  | some i =>
    let rest := cs.drop (i + marker.length)
    match findSub rest marker with
    | none => rest
    | some j => rest.take j

/-- Case-sensitive literal match; returns the remainder. -/
def matchLit : List Char → List Char → Option (List Char)
  | [], cs => some cs
  | _ :: _, [] => none
  | p :: ps, c :: cs => if p = c then matchLit ps cs else none

/-- One attempt of the fallback regex `/"insight"\s*:\s*"([^"]+)"/` at the
current position; returns the captured group. -/
def insightAt (cs : List Char) : Option String :=
  match matchLit "\"insight\"".data cs with
  | none => none
  | some r1 =>
    match (r1.dropWhile isJsWs) with
    | ':' :: r2 =>
      match (r2.dropWhile isJsWs) with
      | '"' :: r3 =>
        let captured := r3.takeWhile (fun c => c ≠ '"')
        if captured = [] then none
        else
          match r3.drop captured.length with
          | '"' :: _ => some (String.mk captured)
          | _ => none
      | _ => none
    | _ => none

/-- First match of the fallback insight regex, scanning left to right. -/
def scanInsight : List Char → Option String
  | [] => insightAt []
  | c :: tail =>
    match insightAt (c :: tail) with
    | some s => some s
    | none => scanInsight tail

/-- Embeds `parseOutput`: text after the first `"Final Answer:"` marker,
trimmed; otherwise a JSON `insight` extraction with a regex fallback. -/
def parseOutput (text : String) : String :=
  if containsMarker text then
    jsTrimStr (String.mk (splitSegment1 text.data "Final Answer:".data))
  else
    match parseJson text with
    | some parsed =>
      match getField parsed "insight" with
      | some (.str s) => s
      | _ =>
        if jsTruthyOpt (getField parsed "searchKeyword") then "null"
        else "Error processing query."
    | none =>
      match scanInsight text.data with
      | some s => s
      | none => "Error processing query."

/-- An `AIMessage` as returned by `llm.invoke`: textual content plus zero
or more tool calls (`result.tool_calls` being `undefined` behaves like the
empty list: the `for` body never runs). -/
structure ModelResponse where
  content : String
  toolCalls : List ToolCall

/-- One turn of the `while (turns < 5)` loop: append the model message,
resolve its tool calls, then test the terminal marker on the same output.
Returns the grown message log and `some result` when the turn returns. -/
def stepTurn (reg : List String) (behave : ToolCall → ToolOutcome)
    (msgs : List Msg) (resp : ModelResponse) : List Msg × Option AgentResult :=
  let msgs1 := msgs ++ [Msg.ai resp.content resp.toolCalls]
  match processToolCalls reg behave resp.toolCalls with
  | .early ms r => (msgs1 ++ ms, some r)
  | .cont ms =>
    let msgs2 := msgs1 ++ ms
    if containsMarker resp.content then (msgs2, some (.answer (parseOutput resp.content)))
    else (msgs2, none)

/-- The turn loop, fuel = remaining turns, also counting model
invocations; falling out of the loop is the `undefined` return
(`AgentResult.noResult`). -/
def runLoop (reg : List String) (behave : ToolCall → ToolOutcome)
    (responses : Nat → ModelResponse) :
    Nat → Nat → List Msg → Nat × List Msg × AgentResult
  | 0, inv, msgs => (inv, msgs, .noResult)
  | fuel + 1, inv, msgs =>
    match stepTurn reg behave msgs (responses inv) with
    | (msgs2, some r) => (inv + 1, msgs2, r)
    | (msgs2, none) => runLoop reg behave responses fuel (inv + 1) msgs2

/-- Embeds `handleContext`: blank queries return the default object before
any model call; otherwise the system prompt (built from the context
bundle; its text is opaque data to the loop) and the human query are
pushed and the loop runs with a turn budget of 5.  Returns (number of
model invocations, final message log, result). -/
def handleContext (reg : List String) (behave : ToolCall → ToolOutcome)
    (responses : Nat → ModelResponse) (systemPrompt query : String)
    (initMsgs : List Msg) : Nat × List Msg × AgentResult :=
  if jsTrimStr query = "" then (0, initMsgs, .noQuery)
  else runLoop reg behave responses 5 0 (initMsgs ++ [.system systemPrompt, .human query])

/-! ## Location context (`updateLocationContext`, `handleLocation`) -/

structure TimezoneCtx where
  name : String
  shortName : String
  fullName : String
  offsetSec : Int
  isDst : Bool
deriving DecidableEq

structure LocationCtx where
  city : String
  state : String
  country : String
  timezone : TimezoneCtx
deriving DecidableEq

/-- The initial / fallback location context (every field defaulted). -/
def fallbackLocationContext : LocationCtx :=
  ⟨"Unknown", "Unknown", "Unknown", ⟨"Unknown", "Unknown", "Unknown", 0, false⟩⟩

/-- Embeds `preserveKnownValue` for string fields with
`isStringUnknown = (val === "Unknown")`.  In the typed embedding the new
value always has the type of the field, so the `typeof` guard is the identity,
and `this.locationContext` is always initialized. -/
def preserveStr (newV cur : String) : String :=
  if newV ≠ "Unknown" then newV
  else if cur ≠ "Unknown" then cur
  else newV

/-- Embeds `preserveKnownValue` for `offsetSec` with
`isNumberUnknown = (val === 0)`. -/
def preserveNum (newV cur : Int) : Int :=
  if newV ≠ 0 then newV
  else if cur ≠ 0 then cur
  else newV

/-- Embeds `updateLocationContext`: field-by-field merge preserving known
values; `isDst` always takes the (boolean) incoming value. -/
def updateLocationContext (cur upd : LocationCtx) : LocationCtx :=
  { city := preserveStr upd.city cur.city
    state := preserveStr upd.state cur.state
    country := preserveStr upd.country cur.country
    timezone :=
      { name := preserveStr upd.timezone.name cur.timezone.name
        shortName := preserveStr upd.timezone.shortName cur.timezone.shortName
        fullName := preserveStr upd.timezone.fullName cur.timezone.fullName
        offsetSec := preserveNum upd.timezone.offsetSec cur.timezone.offsetSec
        isDst := upd.timezone.isDst } }

/-- Reverse-geocoding response address fields (`none` models an absent or
empty, i.e. falsy, field). -/
structure GeoAddress where
  city : Option String
  town : Option String
  village : Option String
  state : Option String
  country : Option String
deriving DecidableEq

/-- Outcome of the LocationIQ reverse-geocoding call in `handleLocation`:
a thrown/non-ok/addressless response leaves the fallback fields in place;
a response with an `address` fills the fields with `||`-chained fallbacks
`"Unknown city"` / `"Unknown state"` / `"Unknown country"`. -/
inductive GeocodeOutcome where
  | fail
  | okNoAddress
  | ok (a : GeoAddress)
deriving DecidableEq

structure TzData where
  name : Option String
  shortName : Option String
  fullName : Option String
  offsetSec : Option Int
  nowInDst : Bool
deriving DecidableEq

/-- Outcome of the LocationIQ timezone call. -/
inductive TimezoneOutcome where
  | fail
  | okNoTz
  | ok (t : TzData)
deriving DecidableEq

/-- Embeds the `locationInfo` assembly in `handleLocation`: start from a
copy of the fallback context, then overwrite from whichever of the two
lookups succeeded. -/
def buildLocationInfo (g : GeocodeOutcome) (t : TimezoneOutcome) : LocationCtx :=
  let base := fallbackLocationContext
  let afterGeo :=
    match g with
    | .ok a =>
      { base with
        city := jsOrStr a.city (jsOrStr a.town (jsOrStr a.village "Unknown city"))
        state := jsOrStr a.state "Unknown state"
        country := jsOrStr a.country "Unknown country" }
    | _ => base
  match t with
  | .ok tz =>
    { afterGeo with
      timezone :=
        { name := jsOrStr tz.name "Unknown"
          shortName := jsOrStr tz.shortName "Unknown"
          fullName := jsOrStr tz.fullName "Unknown"
          offsetSec := jsOrInt tz.offsetSec 0
          isDst := tz.nowInDst } }
  | _ => afterGeo

/-- Embeds `handleLocation`: invalid coordinates (or the outer catch) merge
the fallback context; otherwise the assembled (partial or complete)
`locationInfo` is merged. -/
def handleLocationUpdate (cur : LocationCtx) (validLatLng : Bool)
    (g : GeocodeOutcome) (t : TimezoneOutcome) : LocationCtx :=
  if !validLatLng then updateLocationContext cur fallbackLocationContext
  else updateLocationContext cur (buildLocationInfo g t)

/-! ## TranscriptionManager: wake-window controller state machine

Per-session mutable fields become an explicit state record; calls against
the session (displays, audio, timer management, prefetches) become an
ordered effect list.  The `TranscriptProcessor` live-caption formatter and
`wrapText` are code of this repository that is not under `src/`; their
calls are recorded as effects carrying their arguments (`showLive`,
`showWrapped`) rather than their formatted output. -/

structure TMConfig where
  alwaysListeningSetting : Option Bool
  alwaysListeningDefault : Bool
  speakResponse : Bool
  hasDisplay : Bool
  hasCamera : Bool
  wakeRequiresHeadUp : Bool
deriving DecidableEq

/-- Embeds `isWakeWordRequired`. -/
def isWakeWordRequired (cfg : TMConfig) : Bool :=
  match cfg.alwaysListeningSetting with
  | some b => !b
  | none => !cfg.alwaysListeningDefault

structure TMState where
  isProcessingQuery : Bool
  isListeningToQuery : Bool
  /-- pending debounce timer: duration it was set with (`timeoutId`). -/
  timeoutId : Option Nat
  /-- pending 15s hard-cutoff timer (`maxListeningTimeoutId`). -/
  maxListeningTimeoutId : Bool
  transcriptionStartTime : Nat
  headWakeWindowUntilMs : Nat
  /-- capture time of the cached photo entry of the session, if any. -/
  photoCacheTime : Option Nat
  /-- last live transcript handed to the display
  (`transcriptProcessor.getLastUserTranscript()`).  Modelled from the spec:
  the `TranscriptProcessor` class is not under `src/`; per §4.1 it backs the
  live "what the user is saying" display. -/
  lastShownTranscript : String
deriving DecidableEq

inductive Effect where
  | showWrapped (text : String) (width : Nat) (durationMs : Nat)
  | showText (text : String) (durationMs : Nat)
  | showLive (displayText : String) (isFinal : Bool)
  | playAudio (url : String)
  | speak (text : String)
  | requestPhoto
  | requestLocation
  | setDebounce (ms : Nat)
  | clearDebounce
  | setHardCutoff (ms : Nat)
  | clearHardCutoff
  | scheduleElapsed (timerId : String) (ms : ℚ)
  | cancelElapsed (timerId : String)
  | scheduleProcessingClear (ms : Nat)
  | animStart (text : String)
  | animStop
deriving DecidableEq

structure Fragment where
  text : String
  isFinal : Bool
deriving DecidableEq

def START_LISTENING_SOUND_URL : String := "https://mira.augmentos.cloud/start.mp3"
def PROCESSING_SOUND_URL : String := "https://mira.augmentos.cloud/popping.mp3"

/-- The entry gate of `handleTranscription` (everything that makes the
handler return before touching any state): wake-word mode needs a wake word
(within the head-up window when that setting is on); always-listening mode
needs non-empty cleaned text.  Only applies when not already listening. -/
def gateBlocks (cfg : TMConfig) (s : TMState) (cleanedText : String)
    (hasWake : Bool) (now : Nat) : Bool :=
  if !s.isListeningToQuery then
    if isWakeWordRequired cfg then
      if !hasWake then true
      else if cfg.wakeRequiresHeadUp && !(decide (now ≤ s.headWakeWindowUntilMs)) then true
      else false
    else if cleanedText = "" then true
    else false
  else false

/-- A fragment is accepted (processed past the guards) if no query is being
processed and the entry gate does not block it. -/
def fragAccepted (cfg : TMConfig) (s : TMState) (frag : Fragment) (now : Nat) : Bool :=
  !s.isProcessingQuery &&
    !gateBlocks cfg s (cleanText frag.text) (hasWakeWordIn (cleanText frag.text)) now

/-- State part of the photo-cache maintenance block: drop a cached photo
older than 5s, then (when a camera exists and no entry remains) record a
fresh request. -/
def photoStepState (cfg : TMConfig) (s : TMState) (now : Nat) : TMState :=
  let s1 :=
    match s.photoCacheTime with
    | some t => if t + 5000 < now then { s with photoCacheTime := none } else s
    | none => s
  if s1.photoCacheTime.isNone && cfg.hasCamera then { s1 with photoCacheTime := some now }
  else s1

/-- Effect part of the photo-cache maintenance block. -/
def photoStepEffects (cfg : TMConfig) (s : TMState) (now : Nat) : List Effect :=
  let s1 :=
    match s.photoCacheTime with
    | some t => if t + 5000 < now then { s with photoCacheTime := none } else s
    | none => s
  if s1.photoCacheTime.isNone && cfg.hasCamera then [Effect.requestPhoto] else []

/-- Effects of entering the listening window: optional start cue,
best-effort location refresh, and the 15-second hard-cutoff timer. -/
def startListeningEffects (cfg : TMConfig) : List Effect :=
  (if cfg.speakResponse || !cfg.hasDisplay then [Effect.playAudio START_LISTENING_SOUND_URL]
   else []) ++ [Effect.requestLocation, Effect.setHardCutoff 15000]

/-- The debounce duration chosen for a fragment (the three-way rule at the
end of `handleTranscription`). -/
def debounceFor (cfg : TMConfig) (frag : Fragment) : Nat :=
  if frag.isFinal then
    if isWakeWordRequired cfg && endsWithWakeWord (isWakeWordRequired cfg) (cleanText frag.text)
    then 10000
    else 1500
  else 3000

/-- Embeds `handleTranscription` of the current `TranscriptionManager`:
drop while processing; gate; photo upkeep; listening entry; live display;
debounce reset. -/
def handleTranscription (cfg : TMConfig) (s : TMState) (frag : Fragment)
    (now : Nat) : TMState × List Effect :=
  if s.isProcessingQuery then (s, [])
  else
    let cleanedText := cleanText frag.text
    let hasWake := hasWakeWordIn cleanedText
    if gateBlocks cfg s cleanedText hasWake now then (s, [])
    else
      let s1 := photoStepState cfg s now
      let ePhoto := photoStepEffects cfg s now
      let s2 :=
        if !s.isListeningToQuery then { s1 with maxListeningTimeoutId := true } else s1
      let eStart := if !s.isListeningToQuery then startListeningEffects cfg else []
      let s3 := { s2 with isListeningToQuery := true }
      let s4 :=
        if s3.transcriptionStartTime = 0 then { s3 with transcriptionStartTime := now }
        else s3
      let displayText := removeWakeWord (isWakeWordRequired cfg) frag.text
      let s5 :=
        if jsTrimStr displayText = "" then
          (if jsTrimStr s4.lastShownTranscript ≠ "" then { s4 with lastShownTranscript := "" }
           else s4)
        else { s4 with lastShownTranscript := displayText }
      let eDisplay :=
        if jsTrimStr displayText = "" then [Effect.showText "Listening..." 10000]
        else [Effect.showLive displayText frag.isFinal]
      let d := debounceFor cfg frag
      let eClear := if s5.timeoutId.isSome then [Effect.clearDebounce] else []
      ({ s5 with timeoutId := some d },
       ePhoto ++ eStart ++ eDisplay ++ eClear ++ [Effect.setDebounce d])

/-! ## Ambient proactive gate (`shouldRespondToAmbientSpeech`) -/

structure ProactiveDecision where
  shouldRespond : Bool
  trigger : String
  reason : String
  confidence : ℚ
deriving DecidableEq

/-- The fail-open fallback decision. -/
def fallbackDecision : ProactiveDecision :=
  { shouldRespond := true
    trigger := "fallback"
    reason := "Fallback allowance to avoid missing potential requests."
    confidence := 0 }

/-- Outcome of the single classifier LLM call: the call threw, or it
returned message content (already flattened to a string, as the source
does for array-shaped content). -/
inductive ClassifierOutcome where
  | err
  | raw (content : String)
deriving DecidableEq

/-- Embeds the code-fence stripping applied to the classifier output
before `JSON.parse`. -/
def stripFence (jsonText : String) : String :=
  if startsWithStr jsonText "```" then
    let t1 :=
      match findSub jsonText.data ['\n'] with
      | some i => jsTrimStr (String.mk (jsonText.data.drop (i + 1)))
      | none => jsonText
    if endsWithStr t1 "```" then jsTrimStr (String.mk (t1.data.take (t1.data.length - 3)))
    else t1
  else jsonText

/-- Property access through `??`: a JSON `null` behaves like a missing
field. -/
def nullishGet (parsed : JsonVal) (k : String) : Option JsonVal :=
  match getField parsed k with
  | some .null => none
  | o => o

/-- JavaScript `parseFloat` (longest numeric prefix after leading
whitespace; `none` models `NaN`). -/
def parseFloatQ (s : String) : Option ℚ :=
  let l := s.data.dropWhile isJsWs
  let (neg, l1) :=
    match l with
    | '-' :: r => (true, r)
    | '+' :: r => (false, r)
    | _ => (false, l)
  let p1 := takeDigits l1
  let (fs, l3) :=
    match p1.2 with
    | '.' :: r => takeDigits r
    | _ => (([] : List Char), p1.2)
  if p1.1 = [] && fs = [] then none
  else
    let ex : Int :=
      match l3 with
      | 'e' :: r =>
        (match r with
         | '-' :: r2 => if (takeDigits r2).1 = [] then 0 else -(digitsToNat (takeDigits r2).1 : Int)
         | '+' :: r2 => if (takeDigits r2).1 = [] then 0 else (digitsToNat (takeDigits r2).1 : Int)
         | _ => if (takeDigits r).1 = [] then 0 else (digitsToNat (takeDigits r).1 : Int))
      | 'E' :: r =>
        (match r with
         | '-' :: r2 => if (takeDigits r2).1 = [] then 0 else -(digitsToNat (takeDigits r2).1 : Int)
         | '+' :: r2 => if (takeDigits r2).1 = [] then 0 else (digitsToNat (takeDigits r2).1 : Int)
         | _ => if (takeDigits r).1 = [] then 0 else (digitsToNat (takeDigits r).1 : Int))
      | _ => 0
    some (ratOfParts neg (digitsToNat p1.1) fs ex)

/-- Embeds `shouldRespondToAmbientSpeech` as a function of the classifier
outcome: a thrown call or an unparsable output yields the fallback
decision; a parsed object is read field by field with per-field
fallbacks. -/
def decideAmbient (outcome : ClassifierOutcome) : ProactiveDecision :=
  match outcome with
  | .err => fallbackDecision
  | .raw content =>
    let jsonText := stripFence (jsTrimStr content)
    match parseJson jsonText with
    | none => fallbackDecision
    | some parsed =>
      let srRaw :=
        match nullishGet parsed "should_respond" with
        | some v => some v
        | none =>
          match nullishGet parsed "shouldRespond" with
          | some v => some v
          | none => nullishGet parsed "respond"
      let shouldRespond :=
        match srRaw with
        | some (.bool b) => b
        | some (.str s) => String.mk (toLowerList s.data) = "true"
        | _ => fallbackDecision.shouldRespond
      let trigger :=
        match getField parsed "trigger" with
        | some (.str s) => if (jsTrimStr s).length > 0 then jsTrimStr s else fallbackDecision.trigger
        | _ => fallbackDecision.trigger
      let parsedConfidence : Option ℚ :=
        match getField parsed "confidence" with
        | some (.num q) => some q
        | some (.str s) => parseFloatQ s
        | _ => some fallbackDecision.confidence
      let confidence :=
        match parsedConfidence with
        | some q => max 0 (min 1 q)
        | none => fallbackDecision.confidence
      let reason :=
        match getField parsed "reason" with
        | some (.str s) => if (jsTrimStr s).length > 0 then jsTrimStr s else fallbackDecision.reason
        | _ => fallbackDecision.reason
      { shouldRespond := shouldRespond, trigger := trigger, reason := reason,
        confidence := confidence }

/-! ## processQuery and the response dispatcher -/

/-- Outcome of the transcript-window fetch: a thrown fetch / non-ok
status / empty body / JSON failure, a structurally invalid response, or
the list of segment texts. -/
inductive FetchOutcome where
  | fetchError
  | invalidStructure
  | ok (segments : List String)
deriving DecidableEq

/-- The value `handleContext` resolved to, as seen by `processQuery`:
`undefined` (no result), the handoff sentinel, or a string.  The
`\x7bresult: ...\x7d` object for blank queries cannot reach this point
because `processQuery` filters blank queries first. -/
inductive AgentResponseV where
  | undefinedV
  | handoffV
  | strV (s : String)
deriving DecidableEq

structure PQResult where
  state : TMState
  effects : List Effect
  invokedAgent : Bool
  fetchDuration : Nat
deriving DecidableEq

/-- Embeds `resetListeningState`: zero the start time, cancel both timers,
leave listening, clear the live transcript; the processing flag is cleared
immediately for `delayMs = 0` and on a delayed callback otherwise. -/
def resetListeningState (s : TMState) (delayMs : Nat) : TMState × List Effect :=
  let cleared :=
    (if s.timeoutId.isSome then [Effect.clearDebounce] else []) ++
    (if s.maxListeningTimeoutId then [Effect.clearHardCutoff] else [])
  let s1 := { s with
    transcriptionStartTime := 0
    timeoutId := none
    maxListeningTimeoutId := false
    isListeningToQuery := false
    lastShownTranscript := "" }
  if delayMs > 0 then (s1, cleared ++ [Effect.scheduleProcessingClear delayMs])
  else ({ s1 with isProcessingQuery := false }, cleared)

/-- Embeds `showOrSpeakText`. -/
def showOrSpeak (cfg : TMConfig) (text : String) : List Effect :=
  [Effect.showWrapped text 30 5000] ++
    (if cfg.speakResponse || !cfg.hasDisplay then [Effect.speak text] else [])

/-- Embeds the response dispatching at the end of the current
`processQuery`: a falsy response shows the canned no-answer message; the
handoff sentinel shows nothing; any other string is displayed (and
optionally spoken) as-is — the `JSON.parse` event switch contains only a
default case, so `handled` remains false on every branch. -/
def dispatchResponse (cfg : TMConfig) (resp : AgentResponseV) : List Effect :=
  match resp with
  | .undefinedV => showOrSpeak cfg "Sorry, I couldn\x27t find an answer to that."
  | .handoffV => []
  | .strV s =>
    if s = "" then showOrSpeak cfg "Sorry, I couldn\x27t find an answer to that."
    else showOrSpeak cfg s

/-- JavaScript `Array.prototype.join(' ')`. -/
def joinSpace : List String → String
  | [] => ""
  | [s] => s
  | s :: rest => s ++ " " ++ joinSpace rest

/-- The query text assembled by `processQuery`: segments joined with single
spaces, then wake-word stripping in wake-word mode or a plain trim in
always-listening mode. -/
def queryOf (cfg : TMConfig) (segments : List String) : String :=
  let rawCombinedText := joinSpace segments
  if isWakeWordRequired cfg then removeWakeWord true rawCombinedText
  else jsTrimStr rawCombinedText

/-- Embeds `processQuery` of the current `TranscriptionManager`.  `endTime`
is `Date.now()` at entry; the transcript fetch, the gate classifier call
and the agent call are supplied as outcomes.  Records whether
`miraAgent.handleContext` was invoked and the transcript-window duration
(in whole seconds) requested from the store. -/
def processQuery (cfg : TMConfig) (s : TMState) (endTime timerDuration : Nat)
    (fetch : FetchOutcome) (classifier : ClassifierOutcome)
    (agentResp : AgentResponseV) : PQResult :=
  let durationSeconds :=
    if s.transcriptionStartTime > 0 then
      max 1 ((endTime - s.transcriptionStartTime + 999) / 1000)
    else if timerDuration ≠ 0 then max 1 ((timerDuration + 999) / 1000)
    else 3
  match fetch with
  | .fetchError =>
    { state := s
      effects := [Effect.showWrapped
        "Sorry, there was an error retrieving your transcript. Please try again." 30 5000]
      invokedAgent := false
      fetchDuration := durationSeconds }
  | .invalidStructure =>
    { state := s
      effects := [Effect.showWrapped
        "Sorry, the transcript format was invalid. Please try again." 30 5000]
      invokedAgent := false
      fetchDuration := durationSeconds }
  | .ok segments =>
    if s.isProcessingQuery then
      { state := s, effects := [], invokedAgent := false, fetchDuration := durationSeconds }
    else
      let s1 := { s with isProcessingQuery := true }
      let wakeReq := isWakeWordRequired cfg
      let query := queryOf cfg segments
      if jsTrimStr query = "" then
        let r := resetListeningState s1 0
        if wakeReq then
          { state := r.1
            effects := [Effect.showWrapped "No query provided." 30 5000] ++ r.2
            invokedAgent := false
            fetchDuration := durationSeconds }
        else
          { state := r.1, effects := r.2, invokedAgent := false,
            fetchDuration := durationSeconds }
      else
        if wakeReq = false && (decideAmbient classifier).shouldRespond = false then
          let r := resetListeningState s1 0
          { state := r.1, effects := r.2, invokedAgent := false,
            fetchDuration := durationSeconds }
        else
          let eAudio :=
            if cfg.speakResponse || !cfg.hasDisplay then [Effect.playAudio PROCESSING_SOUND_URL]
            else []
          let displayQuery :=
            if query.length > 60 then jsTrimStr (String.mk (query.data.take 60)) ++ " ..."
            else query
          let ePre := eAudio ++
            [Effect.animStart ("Processing query: " ++ displayQuery),
             Effect.showWrapped ("Processing query: " ++ displayQuery) 30 8000]
          let eDispatch := [Effect.animStop] ++ dispatchResponse cfg agentResp
          let r := resetListeningState s1 2000
          { state := r.1
            effects := ePre ++ eDispatch ++ r.2
            invokedAgent := true
            fetchDuration := durationSeconds }

/-- Embeds `cleanup` of the current `TranscriptionManager` (it clears the
debounce and hard-cutoff timers only; the current variant keeps no
elapsed-timer map). -/
def cleanupCurrent (s : TMState) : List Effect :=
  (if s.timeoutId.isSome then [Effect.clearDebounce] else []) ++
  (if s.maxListeningTimeoutId then [Effect.clearHardCutoff] else [])

/-! ## The earlier TranscriptionManager variant (timer-event dispatcher)

The first variant of `src/index.ts` (kept in the file above the current
one) dispatches the `timer_set` event: it shows the confirmation, schedules
the elapsed notification `duration * 1000` ms later, tracks it in
`activeTimers` keyed by `timerId`, and cancels all tracked timers in
`cleanup`. -/

/-- Multiplication of a rational by an integer, written with `mkRat` so it
evaluates inside the kernel; `ratMulInt_eq` shows it is ordinary
multiplication. -/
def ratMulInt (q : ℚ) (n : Int) : ℚ :=
  mkRat (q.num * n) q.den

/-- JavaScript numeric coercion of a parsed JSON value (for
`parsed.duration * 1000`); `none` models `NaN`.  Exotic string forms
(hex, `Infinity`) are not modelled; the tool emits plain numbers. -/
def jsToNumber : JsonVal → Option ℚ
  | .null => some 0
  | .bool b => some (if b then 1 else 0)
  | .num q => some q
  | .str s =>
    let t := jsTrimStr s
    if t = "" then some 0
    else
      match parseNumber t.data with
      | some (q, rest) => if rest.isEmpty then some q else none
      | none => none
  | .arr _ => none
  | .obj _ => none

/-- Embeds the response dispatching of the earlier `processQuery`
(lines 230–274 of the first variant), returning the effects and the
updated `activeTimers` map. -/
def dispatchResponseLegacy (resp : Option String) (activeTimers : List (String × ℚ)) :
    List Effect × List (String × ℚ) :=
  match resp with
  | none =>
    ([Effect.showWrapped "Sorry, I couldn\x27t find an answer to that." 30 5000], activeTimers)
  | some s =>
    match parseJson s with
    | some parsed =>
      let isTimerSet :=
        jsTruthy parsed && jsTruthyOpt (getField parsed "event") &&
          (match getField parsed "event" with
           | some (.str e) => e = "timer_set"
           | _ => false) &&
          jsTruthyOpt (getField parsed "duration")
      if isTimerSet then
        let durVal := (getField parsed "duration").getD .null
        let labelText :=
          match getField parsed "label" with
          | some lv => if jsTruthy lv then " for \"" ++ jsValToString lv ++ "\"" else ""
          | none => ""
        let timerKey :=
          match getField parsed "timerId" with
          | some tv => jsValToString tv
          | none => "undefined"
        let durMs : ℚ := ratMulInt ((jsToNumber durVal).getD 0) 1000
        ([Effect.showWrapped ("Timer set" ++ labelText ++ " for " ++ jsValToString durVal
            ++ " seconds.") 30 5000,
          Effect.scheduleElapsed timerKey durMs],
         activeTimers ++ [(timerKey, durMs)])
      else ([Effect.showWrapped s 30 8000], activeTimers)
    | none => ([Effect.showWrapped s 30 8000], activeTimers)

/-- Embeds `cleanup` of the earlier `TranscriptionManager`: clears the
debounce timer and every tracked elapsed-notification timer, emptying the
map. -/
def cleanupLegacy (debouncePending : Bool) (activeTimers : List (String × ℚ)) :
    List Effect × List (String × ℚ) :=
  ((if debouncePending then [Effect.clearDebounce] else []) ++
     activeTimers.map (fun p => Effect.cancelElapsed p.1),
   [])

/-! ## Fixture values used by the witnesses -/

def regW : List String := ["Search_Engine"]

def behaveW : ToolCall → ToolOutcome :=
  fun tc => if tc.name = "Search_Engine" then .throws "ECONNRESET" else .str "ok"

def tcsW : List ToolCall :=
  [⟨some "call_1", "Search_Engine", "\x7b\"searchKeyword\":\"weather\"\x7d"⟩,
   ⟨some "call_2", "Weather_Widget", "\x7b\x7d"⟩]

/-- Boolean test that a batch result continues the loop. -/
def isContB : BatchResult → Bool
  | .cont _ => true
  | .early _ _ => false

def responsesW : Nat → ModelResponse := fun _ => ⟨"Let me think about this further.", []⟩

def cfgWake : TMConfig :=
  { alwaysListeningSetting := some false, alwaysListeningDefault := false,
    speakResponse := false, hasDisplay := true, hasCamera := false,
    wakeRequiresHeadUp := false }

def stProc : TMState :=
  { isProcessingQuery := true, isListeningToQuery := false, timeoutId := none,
    maxListeningTimeoutId := false, transcriptionStartTime := 0,
    headWakeWindowUntilMs := 0, photoCacheTime := none, lastShownTranscript := "" }

def parisCtx : LocationCtx :=
  ⟨"Paris", "Ile-de-France", "France",
   ⟨"Europe/Paris", "CET", "Central European Time", 3600, false⟩⟩

def cfgAmb : TMConfig :=
  { alwaysListeningSetting := some true, alwaysListeningDefault := true,
    speakResponse := false, hasDisplay := true, hasCamera := false,
    wakeRequiresHeadUp := false }

def stIdle : TMState :=
  { isProcessingQuery := false, isListeningToQuery := false, timeoutId := none,
    maxListeningTimeoutId := false, transcriptionStartTime := 0,
    headWakeWindowUntilMs := 0, photoCacheTime := none, lastShownTranscript := "" }

def gateNo : ClassifierOutcome := .raw "\x7b\"should_respond\": false\x7d"

def timerJsonX : String :=
  "\x7b\"event\":\"timer_set\",\"duration\":30,\"timerId\":\"X\"\x7d"

def parsedX : JsonVal :=
  .obj [("event", .str "timer_set"), ("duration", .num (mkRat 30 1)), ("timerId", .str "X")]

def stStarted : TMState := { stIdle with transcriptionStartTime := 1000 }

def newlineInput : String := "okay\nhey mira what time is it"


/-! ## Theorems -/

lemma ratMulInt_eq (q : ℚ) (n : Int) : ratMulInt q n = q * (n : ℚ) := by
  have hden : ((q.den : ℚ)) ≠ 0 := by
    exact_mod_cast q.den_nz
  rw [ratMulInt, Rat.mkRat_eq_div]
  push_cast
  conv_rhs => rw [← Rat.num_div_den q]
  field_simp


lemma toolMsgContent_throws (e : String) :
    toolMsgContent (.throws e) = "Error executing tool: " ++ e := by
  have hne : ("Error executing tool: " ++ e) ≠ "" := by
    intro hc
    have hlen := congrArg String.length hc
    rw [String.length_append] at hlen
    have h22 : ("Error executing tool: ").length = 22 := rfl
    have h0 : ("" : String).length = 0 := rfl
    omega
  simp [toolMsgContent, hne]

/-- Helper case analysis for one step of `processToolCalls`. -/
lemma processToolCalls_cont_map (reg : List String) (behave : ToolCall → ToolOutcome) :
    ∀ (tcs : List ToolCall) (ms : List Msg),
      processToolCalls reg behave tcs = .cont ms →
      ms = tcs.map (msgFor reg behave) := by
  intro tcs
  induction tcs with
  | nil =>
    intro ms h
    simp [processToolCalls] at h
    simp [h.symm]
  | cons tc rest ih =>
    intro ms h
    rw [processToolCalls] at h
    by_cases hreg : reg.contains tc.name
    · rw [if_pos hreg] at h
      by_cases hhand : behave tc = .handoff
      · rw [if_pos hhand] at h; exact absurd h (by simp)
      · rw [if_neg hhand] at h
        by_cases htm :
            (tc.name = "Timer" && isTimerSetJson (toolMsgContent (behave tc))) = true
        · rw [if_pos htm] at h; exact absurd h (by simp)
        · rw [if_neg htm] at h
          cases hrec : processToolCalls reg behave rest with
          | cont ms2 =>
            rw [hrec] at h
            simp [consBatch] at h
            subst h
            have hmem : tc.name ∈ reg := by simpa using hreg
            simp [ih ms2 hrec, msgFor, hmem]
          | early ms2 r =>
            rw [hrec] at h
            exact absurd h (by simp [consBatch])
    · rw [if_neg hreg] at h
      cases hrec : processToolCalls reg behave rest with
      | cont ms2 =>
        rw [hrec] at h
        simp [consBatch] at h
        subst h
        have hmem : tc.name ∉ reg := by simpa using hreg
        simp [ih ms2 hrec, msgFor, hmem]
      | early ms2 r =>
        rw [hrec] at h
        exact absurd h (by simp [consBatch])

/-- C1: whenever a tool-call batch completes so that the loop proceeds to
the next model invocation, exactly one tool-result message per tool call
is appended, in emission order: the i-th appended message is the one
determined by the i-th tool call; an absent tool yields the synthesized
`Tool <name> unavailable` error-status message; a throwing tool yields an
error-content message (the batch is not aborted); and one continuing turn
appends the model message followed by exactly these tool results before
the loop re-invokes the model. -/
theorem toolCalls_one_result_each (reg : List String) (behave : ToolCall → ToolOutcome)
    (tcs : List ToolCall) (ms : List Msg)
    (h : processToolCalls reg behave tcs = .cont ms) :
    ms = tcs.map (msgFor reg behave) ∧
    ms.length = tcs.length ∧
    (∀ tc : ToolCall, reg.contains tc.name = false →
      msgFor reg behave tc =
        Msg.tool ("Tool " ++ tc.name ++ " unavailable") (jsOrStr tc.id "unknown_ts") none true) ∧
    (∀ (tc : ToolCall) (e : String), reg.contains tc.name = true → behave tc = .throws e →
      msgFor reg behave tc =
        Msg.tool ("Error executing tool: " ++ e) (jsOrStr tc.id "fallback_ts")
          (some tc.name) false) ∧
    (∀ (msgs : List Msg) (resp : ModelResponse) (ms2 : List Msg),
      processToolCalls reg behave resp.toolCalls = .cont ms2 →
      containsMarker resp.content = false →
      stepTurn reg behave msgs resp =
        (msgs ++ [Msg.ai resp.content resp.toolCalls] ++ ms2, none)) := by
  refine ⟨processToolCalls_cont_map reg behave tcs ms h, ?_, ?_, ?_, ?_⟩
  · rw [processToolCalls_cont_map reg behave tcs ms h, List.length_map]
  · intro tc hreg
    have hmem : tc.name ∉ reg := by simpa using hreg
    simp [msgFor, hmem, unavailableToolMsg]
  · intro tc e hreg hb
    have hmem : tc.name ∈ reg := by simpa using hreg
    simp [msgFor, hmem, hb, buildToolMsg, toolMsgContent_throws]
  · intro msgs resp ms2 hcont hmark
    simp [stepTurn, hcont, hmark]

theorem toolCalls_one_result_each_witness :
    processToolCalls regW behaveW tcsW = .cont (tcsW.map (msgFor regW behaveW)) ∧
    (tcsW.map (msgFor regW behaveW)).length = tcsW.length :=
  have h : processToolCalls regW behaveW tcsW = .cont (tcsW.map (msgFor regW behaveW)) := by
    rfl
  ⟨h, (toolCalls_one_result_each regW behaveW tcsW (tcsW.map (msgFor regW behaveW)) h).2.1⟩

lemma runLoop_exhausts (reg : List String) (behave : ToolCall → ToolOutcome)
    (responses : Nat → ModelResponse) :
    ∀ (fuel inv : Nat) (msgs : List Msg),
      (∀ n, inv ≤ n → n < inv + fuel →
        containsMarker (responses n).content = false ∧
        isContB (processToolCalls reg behave (responses n).toolCalls) = true) →
      (runLoop reg behave responses fuel inv msgs).1 = inv + fuel ∧
      (runLoop reg behave responses fuel inv msgs).2.2 = .noResult := by
  intro fuel
  induction fuel with
  | zero => intro inv msgs _; simp [runLoop]
  | succ fuel ih =>
    intro inv msgs hcond
    obtain ⟨hm, hc⟩ := hcond inv (le_refl inv) (by omega)
    rw [runLoop]
    cases hb : processToolCalls reg behave (responses inv).toolCalls with
    | early ms r => rw [hb] at hc; simp [isContB] at hc
    | cont ms =>
      have hstep : stepTurn reg behave msgs (responses inv) =
          (msgs ++ [Msg.ai (responses inv).content (responses inv).toolCalls] ++ ms, none) := by
        simp [stepTurn, hb, hm]
      rw [hstep]
      have hrec := ih (inv + 1)
        (msgs ++ [Msg.ai (responses inv).content (responses inv).toolCalls] ++ ms)
        (fun n h1 h2 => hcond n (by omega) (by omega))
      exact ⟨hrec.1.trans (by omega), hrec.2⟩

/-- C2: when the model output never contains the `"Final Answer:"` marker
in the first five turns and every tool-call batch completes (no handoff or
timer-event early return), `handleContext` performs exactly 5 model
invocations and then exits the loop with no result (`undefined`) — it does
not perform a sixth; the caller displays its canned no-answer fallback for
that falsy result. -/
theorem turn_budget_exactly_five (reg : List String) (behave : ToolCall → ToolOutcome)
    (responses : Nat → ModelResponse) (systemPrompt query : String) (initMsgs : List Msg)
    (hq : jsTrimStr query ≠ "")
    (hm : ∀ n, n < 5 → containsMarker (responses n).content = false)
    (hc : ∀ n, n < 5 → isContB (processToolCalls reg behave (responses n).toolCalls) = true) :
    (handleContext reg behave responses systemPrompt query initMsgs).1 = 5 ∧
    (handleContext reg behave responses systemPrompt query initMsgs).2.2 = .noResult ∧
    (∀ cfg : TMConfig, dispatchResponse cfg .undefinedV =
      showOrSpeak cfg "Sorry, I couldn\x27t find an answer to that.") := by
  have hloop := runLoop_exhausts reg behave responses 5 0
    (initMsgs ++ [.system systemPrompt, .human query])
    (fun n h1 h2 => ⟨hm n (by omega), hc n (by omega)⟩)
  rw [handleContext, if_neg hq]
  exact ⟨hloop.1, hloop.2, fun _ => rfl⟩

theorem turn_budget_exactly_five_witness :
    (handleContext [] (fun _ => .str "ok") responsesW "sys" "what time is it" []).1 = 5 ∧
    (handleContext [] (fun _ => .str "ok") responsesW "sys" "what time is it" []).2.2 =
      .noResult :=
  have h := turn_budget_exactly_five [] (fun _ => .str "ok") responsesW "sys"
    "what time is it" [] (by decide)
    (fun n _ =>
      (by decide :
        containsMarker (ModelResponse.mk "Let me think about this further." []).content = false))
    (fun n _ =>
      (by decide :
        isContB (processToolCalls [] (fun _ => .str "ok")
          (ModelResponse.mk "Let me think about this further." []).toolCalls) = true))
  ⟨h.1, h.2.1⟩

/-- C3: the per-session processing lock: a fragment delivered while
`isProcessingQuery` is true is dropped unconditionally — the handler
returns the state unchanged with no effects (no timers, no display, no
listening change) — and `processQuery` itself refuses to start a second
query while one is in flight (it neither invokes the agent nor changes the
state). -/
theorem processing_guard_noop :
    (∀ (cfg : TMConfig) (s : TMState) (frag : Fragment) (now : Nat),
      s.isProcessingQuery = true → handleTranscription cfg s frag now = (s, [])) ∧
    (∀ (cfg : TMConfig) (s : TMState) (endTime td : Nat) (fetch : FetchOutcome)
        (cls : ClassifierOutcome) (resp : AgentResponseV),
      s.isProcessingQuery = true →
      (processQuery cfg s endTime td fetch cls resp).invokedAgent = false ∧
      (processQuery cfg s endTime td fetch cls resp).state = s) := by
  constructor
  · intro cfg s frag now h
    simp [handleTranscription, h]
  · intro cfg s endTime td fetch cls resp h
    cases fetch <;> simp [processQuery, h]

theorem processing_guard_noop_witness :
    handleTranscription cfgWake stProc ⟨"hey mira hello", true⟩ 50 = (stProc, []) ∧
    (processQuery cfgWake stProc 3500 1500 (.ok ["hey mira hello"]) .err
      .undefinedV).invokedAgent = false :=
  ⟨processing_guard_noop.1 cfgWake stProc ⟨"hey mira hello", true⟩ 50 rfl,
   (processing_guard_noop.2 cfgWake stProc 3500 1500 (.ok ["hey mira hello"]) .err
      .undefinedV rfl).1⟩

/-- C4 counterexample: a reverse-geocoding response whose `address` has a
state and country but no city/town/village makes `handleLocation` submit
the per-field fallback `"Unknown city"` — a value that resolves to
unknown — and the merge overwrites the previously known city `"Paris"`
with it, because the merge only preserves against the literal
`"Unknown"`. -/
theorem unknown_city_fallback_overwrites :
    (buildLocationInfo (.ok ⟨none, none, none, some "Bavaria", some "Germany"⟩) .fail).city
      = "Unknown city" ∧
    (handleLocationUpdate parisCtx true
        (.ok ⟨none, none, none, some "Bavaria", some "Germany"⟩) .fail).city
      = "Unknown city" ∧
    parisCtx.city = "Paris" := by
  decide

lemma preserveStr_unknown (x : String) : preserveStr "Unknown" x = x := by
  by_cases hx : x = "Unknown" <;> simp [preserveStr, hx]

lemma preserveNum_zero (x : Int) : preserveNum 0 x = x := by
  by_cases hx : x = 0 <;> simp [preserveNum, hx]

/-- C4 amended: for each of the fields city, state, country and timezone
name/shortName/fullName (and offsetSec with 0 as its unknown marker), an
incoming value equal to the literal `"Unknown"` (resp. `0`) never
overwrites a known stored value, and merging the all-`"Unknown"` fallback
context — the one `handleLocation` submits on total failure — is a no-op
on all of these fields; the partial fallbacks of the geocode path,
`"Unknown city"`/`"Unknown state"`/`"Unknown country"`, are excluded, since
they differ from `"Unknown"` and do overwrite (see the counterexample). -/
theorem location_merge_preserves_known (cur upd : LocationCtx) :
    (upd.city = "Unknown" → cur.city ≠ "Unknown" →
      (updateLocationContext cur upd).city = cur.city) ∧
    (upd.state = "Unknown" → cur.state ≠ "Unknown" →
      (updateLocationContext cur upd).state = cur.state) ∧
    (upd.country = "Unknown" → cur.country ≠ "Unknown" →
      (updateLocationContext cur upd).country = cur.country) ∧
    (upd.timezone.name = "Unknown" → cur.timezone.name ≠ "Unknown" →
      (updateLocationContext cur upd).timezone.name = cur.timezone.name) ∧
    (upd.timezone.shortName = "Unknown" → cur.timezone.shortName ≠ "Unknown" →
      (updateLocationContext cur upd).timezone.shortName = cur.timezone.shortName) ∧
    (upd.timezone.fullName = "Unknown" → cur.timezone.fullName ≠ "Unknown" →
      (updateLocationContext cur upd).timezone.fullName = cur.timezone.fullName) ∧
    (upd.timezone.offsetSec = 0 → cur.timezone.offsetSec ≠ 0 →
      (updateLocationContext cur upd).timezone.offsetSec = cur.timezone.offsetSec) ∧
    ((updateLocationContext cur fallbackLocationContext).city = cur.city ∧
     (updateLocationContext cur fallbackLocationContext).state = cur.state ∧
     (updateLocationContext cur fallbackLocationContext).country = cur.country ∧
     (updateLocationContext cur fallbackLocationContext).timezone.name = cur.timezone.name ∧
     (updateLocationContext cur fallbackLocationContext).timezone.shortName
       = cur.timezone.shortName ∧
     (updateLocationContext cur fallbackLocationContext).timezone.fullName
       = cur.timezone.fullName ∧
     (updateLocationContext cur fallbackLocationContext).timezone.offsetSec
       = cur.timezone.offsetSec) := by
  refine ⟨?_, ?_, ?_, ?_, ?_, ?_, ?_, ?_⟩
  · intro h1 h2; simp [updateLocationContext, preserveStr, h1, h2]
  · intro h1 h2; simp [updateLocationContext, preserveStr, h1, h2]
  · intro h1 h2; simp [updateLocationContext, preserveStr, h1, h2]
  · intro h1 h2; simp [updateLocationContext, preserveStr, h1, h2]
  · intro h1 h2; simp [updateLocationContext, preserveStr, h1, h2]
  · intro h1 h2; simp [updateLocationContext, preserveStr, h1, h2]
  · intro h1 h2; simp [updateLocationContext, preserveNum, h1, h2]
  · simp [updateLocationContext, fallbackLocationContext, preserveStr_unknown,
      preserveNum_zero]

theorem location_merge_preserves_known_witness :
    (updateLocationContext parisCtx fallbackLocationContext).city = "Paris" ∧
    (updateLocationContext parisCtx fallbackLocationContext).timezone.offsetSec = 3600 :=
  ⟨(location_merge_preserves_known parisCtx fallbackLocationContext).1
      (by decide) (by decide),
   (location_merge_preserves_known parisCtx fallbackLocationContext).2.2.2.2.2.2.1
      (by decide) (by decide)⟩

/-- C5: the proactive gate fails open — a thrown classifier call and an
unparsable classifier output both yield the fallback decision
(`shouldRespond = true`, `trigger = "fallback"`, `confidence = 0`) — and a
negative gate decision short-circuits `processQuery`: the agent loop is
never invoked and the listening state is reset. -/
theorem ambient_gate_fail_open :
    decideAmbient .err = fallbackDecision ∧
    (∀ s : String, (parseJson (stripFence (jsTrimStr s))).isNone = true →
      decideAmbient (.raw s) = fallbackDecision) ∧
    (∀ (cfg : TMConfig) (st : TMState) (endTime td : Nat) (segs : List String)
        (cls : ClassifierOutcome) (resp : AgentResponseV),
      isWakeWordRequired cfg = false →
      (decideAmbient cls).shouldRespond = false →
      st.isProcessingQuery = false →
      jsTrimStr (queryOf cfg segs) ≠ "" →
      (processQuery cfg st endTime td (.ok segs) cls resp).invokedAgent = false ∧
      (processQuery cfg st endTime td (.ok segs) cls resp).state.isProcessingQuery = false ∧
      (processQuery cfg st endTime td (.ok segs) cls resp).state.isListeningToQuery = false ∧
      (processQuery cfg st endTime td (.ok segs) cls resp).state.timeoutId = none ∧
      (processQuery cfg st endTime td (.ok segs) cls resp).state.maxListeningTimeoutId
        = false ∧
      (processQuery cfg st endTime td (.ok segs) cls resp).state.transcriptionStartTime
        = 0) := by
  refine ⟨rfl, ?_, ?_⟩
  · intro s h
    rw [Option.isNone_iff_eq_none] at h
    simp [decideAmbient, h]
  · intro cfg st endTime td segs cls resp hwake hresp hproc hq
    simp [processQuery, hproc, hq, hwake, hresp, resetListeningState]

theorem ambient_gate_fail_open_witness :
    decideAmbient (.raw "I think you should stay silent here.") = fallbackDecision ∧
    (processQuery cfgAmb stIdle 3500 1500 (.ok ["did you feed the dog"]) gateNo
      .undefinedV).invokedAgent = false :=
  ⟨ambient_gate_fail_open.2.1 "I think you should stay silent here." (by decide),
   (ambient_gate_fail_open.2.2 cfgAmb stIdle 3500 1500 ["did you feed the dog"] gateNo
      .undefinedV (by decide) (by decide) rfl (by decide)).1⟩

/-- C6: a query that is blank after wake-word stripping skips the agent
loop entirely and resets the listening state; the `"No query provided."`
notice appears exactly in wake-word mode, while always-listening mode
produces no display, speech or live-caption effect at all. -/
theorem blank_query_skips_loop (cfg : TMConfig) (st : TMState) (endTime td : Nat)
    (segs : List String) (cls : ClassifierOutcome) (resp : AgentResponseV)
    (hproc : st.isProcessingQuery = false)
    (hq : jsTrimStr (queryOf cfg segs) = "") :
    (processQuery cfg st endTime td (.ok segs) cls resp).invokedAgent = false ∧
    ((Effect.showWrapped "No query provided." 30 5000 ∈
        (processQuery cfg st endTime td (.ok segs) cls resp).effects) ↔
      isWakeWordRequired cfg = true) ∧
    (isWakeWordRequired cfg = false →
      ∀ e ∈ (processQuery cfg st endTime td (.ok segs) cls resp).effects,
        e = Effect.clearDebounce ∨ e = Effect.clearHardCutoff) ∧
    (processQuery cfg st endTime td (.ok segs) cls resp).state.isProcessingQuery = false ∧
    (processQuery cfg st endTime td (.ok segs) cls resp).state.isListeningToQuery = false ∧
    (processQuery cfg st endTime td (.ok segs) cls resp).state.timeoutId = none ∧
    (processQuery cfg st endTime td (.ok segs) cls resp).state.maxListeningTimeoutId
      = false ∧
    (processQuery cfg st endTime td (.ok segs) cls resp).state.transcriptionStartTime
      = 0 := by
  by_cases hw : isWakeWordRequired cfg
  · simp [processQuery, hproc, hq, hw, resetListeningState]
  · simp [processQuery, hproc, hq, hw, resetListeningState]
    intro e he
    rcases he with ⟨-, rfl⟩ | ⟨-, rfl⟩ <;> simp

theorem blank_query_skips_loop_witness :
    (processQuery cfgWake stIdle 9000 8000 (.ok ["hey mira"]) .err .undefinedV).invokedAgent
      = false ∧
    Effect.showWrapped "No query provided." 30 5000 ∈
      (processQuery cfgWake stIdle 9000 8000 (.ok ["hey mira"]) .err .undefinedV).effects :=
  have h := blank_query_skips_loop cfgWake stIdle 9000 8000 ["hey mira"] .err .undefinedV
    rfl (by decide)
  ⟨h.1, h.2.1.mpr (by decide)⟩

/-- C7 counterexample: the current response dispatcher has no `timer_set`
case (its event switch holds only a default), so on the Timer
round-trip JSON it produces a single plain-text display of the raw JSON —
no `Timer set ... seconds` confirmation and no scheduled
elapsed-notification — even though the string is exactly the shape the
agent loop returns directly for the Timer tool. -/
theorem timer_event_not_dispatched :
    dispatchResponse cfgWake (.strV timerJsonX) = [Effect.showWrapped timerJsonX 30 5000] ∧
    Effect.showWrapped "Timer set for 30 seconds." 30 5000 ∉
      dispatchResponse cfgWake (.strV timerJsonX) ∧
    Effect.scheduleElapsed "X" (mkRat 30000 1) ∉ dispatchResponse cfgWake (.strV timerJsonX) ∧
    isTimerSetJson timerJsonX = true := by
  decide

/-- C7 amended: the timer round-trip holds in the earlier
`TranscriptionManager` variant: for any agent result that parses as a
`timer_set` JSON object with a nonzero numeric duration and a string timer
id (and no label), its legacy dispatcher emits exactly one
`Timer set for <duration> seconds.` display and exactly one scheduled
elapsed notification `duration * 1000` ms later, tracks it in
`activeTimers` under the timer id, and the legacy `cleanup` cancels it and
empties the map; the current dispatcher schedules nothing for the same
input. -/
theorem timer_roundtrip_legacy_only (s : String) (parsed : JsonVal) (q : ℚ) (tid : String)
    (timers : List (String × ℚ))
    (hp : parseJson s = some parsed)
    (he : getField parsed "event" = some (.str "timer_set"))
    (hd : getField parsed "duration" = some (.num q))
    (hq : q ≠ 0)
    (hl : getField parsed "label" = none)
    (ht : getField parsed "timerId" = some (.str tid)) :
    (dispatchResponseLegacy (some s) timers).1 =
      [Effect.showWrapped ("Timer set for " ++ jsValToString (.num q) ++ " seconds.") 30 5000,
       Effect.scheduleElapsed tid (ratMulInt q 1000)] ∧
    (dispatchResponseLegacy (some s) timers).2 = timers ++ [(tid, ratMulInt q 1000)] ∧
    ratMulInt q 1000 = q * 1000 ∧
    (cleanupLegacy false ((dispatchResponseLegacy (some s) timers).2)).2 = [] ∧
    Effect.cancelElapsed tid ∈
      (cleanupLegacy false ((dispatchResponseLegacy (some s) timers).2)).1 ∧
    (∀ cfg : TMConfig, ∀ ms2 : ℚ,
      Effect.scheduleElapsed tid ms2 ∉ dispatchResponse cfg (.strV s)) := by
  have htruthy : jsTruthy parsed = true := by
    cases parsed <;> simp [getField, jsTruthy] at he ⊢
  have hfold : ("Timer set" ++ "" ++ " for " : String) = "Timer set for " := by decide
  have hstr : "Timer set" ++ "" ++ " for " ++ jsValToString (.num q) ++ " seconds." =
      "Timer set for " ++ jsValToString (.num q) ++ " seconds." := by
    rw [hfold]
  have he1 : jsTruthy (.str "timer_set") = true := by decide
  have he2 : jsTruthy (.num q) = true := by simp [jsTruthy, hq]
  have he3 : jsValToString (.str tid) = tid := rfl
  have he4 : jsToNumber (.num q) = some q := rfl
  have hpair : dispatchResponseLegacy (some s) timers =
      ([Effect.showWrapped ("Timer set for " ++ jsValToString (.num q) ++ " seconds.") 30 5000,
        Effect.scheduleElapsed tid (ratMulInt q 1000)],
       timers ++ [(tid, ratMulInt q 1000)]) := by
    rw [dispatchResponseLegacy, hp]
    simp only [he, hd, hl, ht, Option.getD_some, jsTruthyOpt, htruthy, he1, he2, he3, he4]
    simp [hstr]
  refine ⟨by rw [hpair], by rw [hpair], ratMulInt_eq q 1000 |>.trans (by ring), ?_, ?_, ?_⟩
  · rfl
  · rw [hpair]
    simp [cleanupLegacy]
  · intro cfg ms2
    simp only [dispatchResponse]
    split_ifs <;> simp [showOrSpeak] <;> split_ifs <;> simp

theorem timer_roundtrip_legacy_only_witness :
    (dispatchResponseLegacy (some timerJsonX) []).1 =
      [Effect.showWrapped
        ("Timer set for " ++ jsValToString (.num (mkRat 30 1)) ++ " seconds.") 30 5000,
       Effect.scheduleElapsed "X" (ratMulInt (mkRat 30 1) 1000)] ∧
    (dispatchResponseLegacy (some timerJsonX) []).2 = [("X", ratMulInt (mkRat 30 1) 1000)] :=
  have h := timer_roundtrip_legacy_only timerJsonX parsedX (mkRat 30 1) "X" []
    (by rfl) (by rfl) (by rfl) (by decide) (by rfl) (by rfl)
  ⟨h.1, h.2.1⟩

lemma nat_ceil_div_1000 (n : ℕ) : ⌈(n : ℚ) / 1000⌉₊ = (n + 999) / 1000 := by
  rcases Nat.eq_zero_or_pos n with rfl | hn
  · simp
  · have hk : (n + 999) / 1000 ≠ 0 := by omega
    obtain ⟨j, hj⟩ : ∃ j, (n + 999) / 1000 = j + 1 :=
      ⟨(n + 999) / 1000 - 1, by omega⟩
    rw [Nat.ceil_eq_iff hk, hj]
    have h1000 : (0 : ℚ) < 1000 := by norm_num
    constructor
    · rw [lt_div_iff h1000]
      have hlt : j * 1000 < n := by omega
      exact_mod_cast (by push_cast; exact_mod_cast hlt :
        ((j + 1 - 1 : ℕ) : ℚ) * 1000 < (n : ℚ))
    · rw [div_le_iff h1000]
      have hle : n ≤ (j + 1) * 1000 := by omega
      exact_mod_cast hle

/-- C8: whenever query processing fires with a recorded listening start
time, the transcript-window duration requested from the transcript store
is the wall-clock time since listening began, rounded up to whole seconds,
with a minimum of one second. -/
theorem transcript_window_duration (cfg : TMConfig) (st : TMState) (endTime td : Nat)
    (fetch : FetchOutcome) (cls : ClassifierOutcome) (resp : AgentResponseV)
    (h1 : 0 < st.transcriptionStartTime) (h2 : st.transcriptionStartTime ≤ endTime) :
    (processQuery cfg st endTime td fetch cls resp).fetchDuration =
      max 1 ⌈((endTime - st.transcriptionStartTime : ℕ) : ℚ) / 1000⌉₊ := by
  have hd : (processQuery cfg st endTime td fetch cls resp).fetchDuration =
      max 1 ((endTime - st.transcriptionStartTime + 999) / 1000) := by
    cases fetch with
    | fetchError => simp [processQuery, h1]
    | invalidStructure => simp [processQuery, h1]
    | ok segs =>
      simp only [processQuery]
      split_ifs <;> first | rfl | omega
  rw [hd, nat_ceil_div_1000]

theorem transcript_window_duration_witness :
    (processQuery cfgWake stStarted 3500 1500 (.ok ["hey mira what time is it"]) .err
      .undefinedV).fetchDuration = 3 :=
  (transcript_window_duration cfgWake stStarted 3500 1500
    (.ok ["hey mira what time is it"]) .err .undefinedV (by decide) (by decide)).trans
    (by
      have h : (3500 - stStarted.transcriptionStartTime : ℕ) = 2500 := rfl
      rw [h, nat_ceil_div_1000]
      decide)

lemma photoStepEffects_shape (cfg : TMConfig) (s : TMState) (now : Nat) :
    ∀ e ∈ photoStepEffects cfg s now, e = Effect.requestPhoto := by
  intro e he
  cases hpc : s.photoCacheTime with
  | none =>
    simp only [photoStepEffects, hpc] at he
    split_ifs at he <;> simp_all
  | some t =>
    simp only [photoStepEffects, hpc] at he
    split_ifs at he <;> simp_all

lemma startListeningEffects_shape (cfg : TMConfig) :
    ∀ e ∈ startListeningEffects cfg,
      e = Effect.playAudio START_LISTENING_SOUND_URL ∨ e = Effect.requestLocation ∨
      e = Effect.setHardCutoff 15000 := by
  intro e he
  unfold startListeningEffects at he
  split_ifs at he <;> simp at he <;> tauto

/-- Unfolded form of `handleTranscription` on an accepted fragment. -/
lemma handleTranscription_accepted (cfg : TMConfig) (s : TMState) (frag : Fragment)
    (now : Nat) (hacc : fragAccepted cfg s frag now = true) :
    handleTranscription cfg s frag now =
      (let s1 := photoStepState cfg s now
       let s2 := if !s.isListeningToQuery then { s1 with maxListeningTimeoutId := true } else s1
       let s3 := { s2 with isListeningToQuery := true }
       let s4 := if s3.transcriptionStartTime = 0 then { s3 with transcriptionStartTime := now }
         else s3
       let displayText := removeWakeWord (isWakeWordRequired cfg) frag.text
       let s5 := if jsTrimStr displayText = "" then
           (if jsTrimStr s4.lastShownTranscript ≠ "" then { s4 with lastShownTranscript := "" }
            else s4)
         else { s4 with lastShownTranscript := displayText }
       ({ s5 with timeoutId := some (debounceFor cfg frag) },
        photoStepEffects cfg s now ++
          (if !s.isListeningToQuery then startListeningEffects cfg else []) ++
          (if jsTrimStr displayText = "" then [Effect.showText "Listening..." 10000]
           else [Effect.showLive displayText frag.isFinal]) ++
          (if s5.timeoutId.isSome then [Effect.clearDebounce] else []) ++
          [Effect.setDebounce (debounceFor cfg frag)])) := by
  have hproc : s.isProcessingQuery = false := by
    have := hacc
    unfold fragAccepted at this
    simp at this
    exact this.1
  have hgate : gateBlocks cfg s (cleanText frag.text) (hasWakeWordIn (cleanText frag.text)) now
      = false := by
    have := hacc
    unfold fragAccepted at this
    simp at this
    exact this.2
  rw [handleTranscription]
  simp only [hproc, hgate, Bool.false_eq_true, if_false, debounceFor]

/-- The debounce state left by an accepted fragment: the single pending
timer field holds exactly the new duration. -/
lemma handleTranscription_timeoutId (cfg : TMConfig) (s : TMState) (frag : Fragment)
    (now : Nat) (hacc : fragAccepted cfg s frag now = true) :
    (handleTranscription cfg s frag now).1.timeoutId = some (debounceFor cfg frag) := by
  rw [handleTranscription_accepted cfg s frag now hacc]

/-- C9: every accepted fragment resets (rather than stacks) the debounce
timer — afterwards exactly one pending debounce exists, carrying the new
duration; a `setDebounce` effect with that duration is emitted, no other
`setDebounce` occurs, and a `clearDebounce` occurs exactly when a previous
debounce timer was pending — and the chosen duration follows the
three-way rule: 3000 ms for a non-final fragment, 10000 ms (within the
specified 8000–10000 ms band) for a final fragment whose cleaned text ends
with a wake word in wake-word mode, and 1500 ms for any other final
fragment. -/
theorem debounce_reset_rule (cfg : TMConfig) (s : TMState) (frag : Fragment) (now : Nat)
    (hacc : fragAccepted cfg s frag now = true) :
    (handleTranscription cfg s frag now).1.timeoutId = some (debounceFor cfg frag) ∧
    Effect.setDebounce (debounceFor cfg frag) ∈ (handleTranscription cfg s frag now).2 ∧
    (∀ d, Effect.setDebounce d ∈ (handleTranscription cfg s frag now).2 →
      d = debounceFor cfg frag) ∧
    ((handleTranscription cfg s frag now).2.count Effect.clearDebounce =
      if s.timeoutId.isSome then 1 else 0) ∧
    (frag.isFinal = false → debounceFor cfg frag = 3000) ∧
    (frag.isFinal = true → isWakeWordRequired cfg = true →
      endsWithWakeWord (isWakeWordRequired cfg) (cleanText frag.text) = true →
      debounceFor cfg frag = 10000 ∧ 8000 ≤ debounceFor cfg frag ∧
        debounceFor cfg frag ≤ 10000) ∧
    (frag.isFinal = true →
      (isWakeWordRequired cfg = false ∨
        endsWithWakeWord (isWakeWordRequired cfg) (cleanText frag.text) = false) →
      debounceFor cfg frag = 1500) := by
  rw [handleTranscription_accepted cfg s frag now hacc]
  have htid : (if !s.isListeningToQuery then
        { photoStepState cfg s now with maxListeningTimeoutId := true }
      else photoStepState cfg s now).timeoutId = s.timeoutId := by
    have hp : (photoStepState cfg s now).timeoutId = s.timeoutId := by
      cases hpc : s.photoCacheTime with
      | none =>
        simp only [photoStepState, hpc]
        split_ifs <;> rfl
      | some t =>
        simp only [photoStepState, hpc]
        split_ifs <;> rfl
    split_ifs <;> simp [hp]
  refine ⟨rfl, ?_, ?_, ?_, ?_, ?_, ?_⟩
  · simp
  · intro d hd
    simp only [List.mem_append] at hd
    rcases hd with ((((hd | hd) | hd) | hd) | hd)
    · exact absurd (photoStepEffects_shape cfg s now _ hd) (by simp)
    · split_ifs at hd
      · rcases startListeningEffects_shape cfg _ hd with h | h | h <;> simp at h
      · simp at hd
    · split_ifs at hd <;> simp at hd
    · split_ifs at hd <;> simp at hd
    · simp at hd
      exact hd.symm ▸ rfl
  · have hphoto : (photoStepEffects cfg s now).count Effect.clearDebounce = 0 := by
      rw [List.count_eq_zero]
      intro hmem
      exact absurd (photoStepEffects_shape cfg s now _ hmem) (by simp)
    have hstart : ∀ b : Bool, ((if b then startListeningEffects cfg else []) :
        List Effect).count Effect.clearDebounce = 0 := by
      intro b
      cases b
      · simp
      · rw [if_pos rfl, List.count_eq_zero]
        intro hmem
        rcases startListeningEffects_shape cfg _ hmem with h | h | h <;> simp at h
    simp only [List.count_append, hphoto]
    split_ifs <;>
      simp_all [List.count_cons, List.count_nil, startListeningEffects,
        List.count_append]
  · intro hf
    simp [debounceFor, hf]
  · intro hf hw he
    rw [hw] at he
    simp [debounceFor, hf, hw, he]
  · intro hf hcase
    rcases hcase with hw | he
    · simp [debounceFor, hf, hw]
    · simp [debounceFor, hf, he]

theorem debounce_reset_rule_witness :
    (handleTranscription cfgWake stIdle ⟨"hey mira", true⟩ 100).1.timeoutId =
      some (debounceFor cfgWake ⟨"hey mira", true⟩) ∧
    debounceFor cfgWake ⟨"hey mira", true⟩ = 10000 :=
  have h := debounce_reset_rule cfgWake stIdle ⟨"hey mira", true⟩ 100 (by decide)
  ⟨h.1, (h.2.2.2.2.2.1 rfl (by decide) (by decide)).1⟩

lemma attempt_eq_first (cs : List Char) (hdot : ∀ c ∈ cs, isDotChar c = true) :
    attemptMatch cs = firstWakeEnd cs := by
  induction cs with
  | nil => rfl
  | cons c tail ih =>
    simp only [attemptMatch, firstWakeEnd]
    cases hm : matchWakeTrail (c :: tail) with
    | some r => rfl
    | none =>
      have hc : isDotChar c = true := hdot c (by simp)
      simp [hc, ih (fun x hx => hdot x (by simp [hx]))]

lemma first_none_attempt (cs : List Char) (h : firstWakeEnd cs = none) :
    attemptMatch cs = none := by
  induction cs with
  | nil => rw [attemptMatch]; rw [firstWakeEnd] at h; exact h
  | cons c tail ih =>
    rw [firstWakeEnd] at h
    rw [attemptMatch]
    cases hm : matchWakeTrail (c :: tail) with
    | some r => rw [hm] at h; simp at h
    | none =>
      rw [hm] at h
      simp at h
      by_cases hc : isDotChar c <;> simp [hc, ih h]

lemma first_none_scan (cs : List Char) (h : firstWakeEnd cs = none) :
    scanMatch cs = none := by
  induction cs with
  | nil =>
    rw [scanMatch, first_none_attempt [] h]
    rfl
  | cons c tail ih =>
    have htail : firstWakeEnd tail = none := by
      rw [firstWakeEnd] at h
      cases hm : matchWakeTrail (c :: tail) with
      | some r => rw [hm] at h; simp at h
      | none => rw [hm] at h; simpa using h
    rw [scanMatch, first_none_attempt (c :: tail) h]
    simp [ih htail]

lemma alldot_scan (cs : List Char) (hdot : ∀ c ∈ cs, isDotChar c = true)
    (rest : List Char) (hfirst : firstWakeEnd cs = some rest) :
    scanMatch cs = some ([], rest) := by
  have ha : attemptMatch cs = firstWakeEnd cs := attempt_eq_first cs hdot
  cases cs with
  | nil => rw [scanMatch, ha, hfirst]; rfl
  | cons c tail => rw [scanMatch, ha, hfirst]

/-- C10 counterexample: the regex dot cannot cross a line terminator, so
when a newline precedes the wake word only the segment after the newline
is deleted: on `"okay\nhey mira what time is it"` the claimed result —
everything from the start of the string through the wake word removed,
i.e. `"what time is it"` — differs from what `removeWakeWord` produces,
`"okay\nwhat time is it"`. -/
theorem wake_strip_newline_counterexample :
    removeWakeWordCore newlineInput = "okay\nwhat time is it" ∧
    firstWakeEnd newlineInput.data = some ("what time is it").data ∧
    removeWakeWordCore newlineInput ≠ "what time is it" ∧
    removeWakeWord true newlineInput = removeWakeWordCore newlineInput := by
  refine ⟨by decide, by decide, by decide, rfl⟩

/-- C10 amended: in wake-word mode `removeWakeWord` applies the regex
`.*?(?:wake alternation)[\s,\.!]*` once and trims: with no wake-word match
anywhere the result is the input trimmed, and — provided no line
terminator occurs in the input (the counterexample shows this proviso is
necessary) — a wake-word match makes the result the suffix after the first
wake-word occurrence plus trailing separators, trimmed, discarding all
speech before the wake word; in always-listening mode the input is only
trimmed. -/
theorem wake_strip_characterization (text : String) :
    (firstWakeEnd text.data = none → removeWakeWordCore text = jsTrimStr text) ∧
    ((∀ c ∈ text.data, isDotChar c = true) →
      ∀ rest, firstWakeEnd text.data = some rest →
        removeWakeWordCore text = String.mk (jsTrimList rest)) ∧
    removeWakeWord true text = removeWakeWordCore text ∧
    (∀ t2 : String, removeWakeWord false t2 = jsTrimStr t2) := by
  refine ⟨?_, ?_, rfl, fun t2 => rfl⟩
  · intro h
    rw [removeWakeWordCore, first_none_scan text.data h]
  · intro hdot rest hfirst
    rw [removeWakeWordCore, alldot_scan text.data hdot rest hfirst]
    rfl

theorem wake_strip_characterization_witness :
    removeWakeWordCore "blah blah hey mira what time is it" = "what time is it" ∧
    removeWakeWordCore "no wake word in this text" = "no wake word in this text" :=
  ⟨(wake_strip_characterization "blah blah hey mira what time is it").2.1 (by decide)
      ("what time is it").data (by decide),
   (wake_strip_characterization "no wake word in this text").1 (by decide)⟩

end Oasis
